import Mathlib

/-!
Verification of `intake/catalog/base.py`: the catalog tree, its watcher
(`State`) variants, the shared TTL-throttled staleness primitive, and the
breadth-first traversal.  Definitions are shallow embeddings of the Python
source; time values are modelled as rationals, the filesystem and the
network as explicit oracle parameters, and Python object identity as
natural-number ids.  Definitions come first, then the theorems.
-/

namespace Intake

/-- Modelled from the spec: the external utility `clamp` from
`catalog/utils.py` is not part of the provided source; per the spec a TTL
is "floor-clamped to a minimum" by it.  The minimum `lo` is left as a
parameter since its value is unspecified. -/
def clamp (ttl lo : ℚ) : ℚ := max ttl lo

/-- The timing fields of the base watcher `State` (`base.py` lines 13-19):
`ttl`, `_modification_time` and `_last_updated`.  The `name` and
`observable` fields play no role in the staleness algorithm and are kept
by the per-variant models. -/
structure StateClock where
  ttl : ℚ
  modification_time : ℚ
  last_updated : ℚ
deriving Repr, DecidableEq

/-- `State.__init__`: stores `clamp ttl lo` and zero-initialises
`_modification_time` and `_last_updated` (the sentinel in the past). -/
def StateClock.init (ttl lo : ℚ) : StateClock :=
  { ttl := clamp ttl lo, modification_time := 0, last_updated := 0 }

/-- `State.update_modification_time(value)` at current time `now`
(`base.py` lines 24-31): if `now - _last_updated > ttl` the probe is
accepted — remember whether `value > _modification_time`, store `value`
and `now`, and return the comparison; otherwise return `False` and leave
the stored fields untouched.  Returns the boolean together with the
post-call state. -/
def StateClock.update_modification_time (s : StateClock) (value now : ℚ) :
    Bool × StateClock :=
  if now - s.last_updated > s.ttl then
    (decide (value > s.modification_time),
     { s with modification_time := value, last_updated := now })
  else
    (false, s)

/-- `State.changed()` (`base.py` lines 33-34): passes the current clock
time as the observed value.  The two adjacent `time.time()` calls of the
source are modelled as the same instant `now`. -/
def StateClock.changed (s : StateClock) (now : ℚ) : Bool × StateClock :=
  s.update_modification_time now now

/-- Opaque data-source entry: the core stores and returns these by name
without interpreting them.  `url` is set for entries minted by a Remote
watcher (`RemoteCatalogEntry(url=..., **s)`); `fields` carries the
descriptor's own key/value pairs. -/
structure Entry where
  url : Option String
  fields : List (String × String)
deriving Repr, DecidableEq

/-- Opaque plugin descriptor, passed through unmodified. -/
abbrev Plugin := String

/-- The snapshot produced by one `State.refresh()`: the 4-tuple
`(name, children, entries, plugins)`.  Children are identified here by the
name key and a node id standing for the child Catalog object. -/
structure Snapshot where
  name : Option String
  children : List (Option String × Nat)
  entries : List (String × Entry)
  plugins : List Plugin
deriving Repr, DecidableEq

/-- The four cached fields of a `Catalog` object that `reload()` assigns:
`self.name`, `self._children`, `self._entries`, `self._plugins`
(`base.py` line 158). -/
structure CatalogCache where
  name : Option String
  children : List (Option String × Nat)
  entries : List (String × Entry)
  plugins : List Plugin
deriving Repr, DecidableEq

/-- `Catalog.reload()` (`base.py` lines 157-158):
`self.name, self._children, self._entries, self._plugins = self._state.refresh()`.
The right-hand side is evaluated first, so when `refresh()` raises, no
assignment happens and the old cache survives; on success the tuple is
unpacked into all four fields at once.  The refresh outcome is passed in
as an `Except`; the result pairs the propagated outcome with the
post-call cache. -/
def Catalog.reload (c : CatalogCache) (refreshed : Except String Snapshot) :
    Except String Unit × CatalogCache :=
  match refreshed with
  | .error e => (.error e, c)
  | .ok s => (.ok (), { name := s.name, children := s.children,
                        entries := s.entries, plugins := s.plugins })

/-- An observable as seen by `create_state`: after `flatten` in
`Catalog.__init__`, either a single string (URL or path) or a list of
strings. -/
inductive Observable where
  | str (s : String)
  | strs (l : List String)
deriving Repr, DecidableEq

/-- The four watcher variants of `base.py`. -/
inductive StateKind where
  | collection
  | remote
  | directory
  | localFile
deriving Repr, DecidableEq

/-- Model of Python `str.endswith(post)` (the `.endswith('.yml')` checks
of `base.py`): suffix test on the underlying character list.  Same
behaviour as `String.endsWith`, stated on `List Char` so that concrete
instances compute. -/
def endsWithStr (s post : String) : Bool := post.data.isSuffixOf s.data

/-- `create_state` (`base.py` lines 106-116), reduced to which watcher
variant is constructed.  The one filesystem existence check
(`os.path.isdir`) is passed in as the oracle `isdir`; the final
`raise TypeError` (the `UnsupportedObservable` failure) is the error
case. -/
def create_state (observable : Observable) (isdir : String → Bool) :
    Except Unit StateKind :=
  match observable with
  | .strs _ => .ok .collection
  | .str s =>
    if s.startsWith "http://" || s.startsWith "https://" then .ok .remote
    else if isdir s then .ok .directory
    else if endsWithStr s ".yml" || endsWithStr s ".yaml" then .ok .localFile
    else .error ()

/-- Classification rules exactly as the claim words them, first match
wins: a list yields Collection; a string beginning with `http://` or
`https://` yields Remote; an existing directory path yields Directory; a
path ending in `.yml` or `.yaml` yields Local; anything else is the
`UnsupportedObservable` error. -/
def classifyClaim (observable : Observable) (isdir : String → Bool) :
    Except Unit StateKind :=
  match observable with
  | .strs _ => .ok .collection
  | .str s =>
    if s.startsWith "http://" then .ok .remote
    else if s.startsWith "https://" then .ok .remote
    else if isdir s then .ok .directory
    else if endsWithStr s ".yml" then .ok .localFile
    else if endsWithStr s ".yaml" then .ok .localFile
    else .error ()

/-- One element of the remote info payload's `sources` sequence: a map of
named options, of which `name` is the key the entry is stored under. -/
structure Source where
  name : String
  options : List (String × String)
deriving Repr, DecidableEq

/-- Model of `urljoin(base, rel)` for the shapes this code produces: the
base ends in `/` and the relative path has no leading `/` or scheme, so
the join is plain concatenation. -/
def urljoin (base rel : String) : String := base ++ rel

/-- Model of `urlparse(u).netloc` for the `http://`/`https://` URLs a
Remote watcher is built from: the text between the scheme separator and
the next `/`. -/
def netloc (u : String) : String :=
  let rest :=
    if u.startsWith "http://" then u.drop 7
    else if u.startsWith "https://" then u.drop 8
    else u
  rest.takeWhile (fun c => c ≠ '/')

/-- `RemoteState` (`base.py` lines 58-63): keeps the observable URL plus
the timing fields inherited from `State`; the derived URLs are computed
from the observable below. -/
structure RemoteState where
  name : Option String
  observable : String
  clock : StateClock
deriving Repr, DecidableEq

/-- `self.base_url = observable + '/'`. -/
def RemoteState.base_url (st : RemoteState) : String := st.observable ++ "/"

/-- `self.info_url = urljoin(self.base_url, 'v1/info')`. -/
def RemoteState.info_url (st : RemoteState) : String :=
  urljoin st.base_url "v1/info"

/-- `self.source_url = urljoin(self.base_url, 'v1/source')`. -/
def RemoteState.source_url (st : RemoteState) : String :=
  urljoin st.base_url "v1/source"

/-- The HTTP response the `requests.get(self.info_url)` call produced,
supplied as an oracle: final URL, status code, and the msgpack-decoded
`sources` field (`none` models an undecodable body, whose unpack error
aborts the refresh). -/
structure HttpResponse where
  url : String
  status_code : Nat
  sources : Option (List Source)
deriving Repr, DecidableEq

/-- `RemoteState.refresh` (`base.py` lines 65-75): sanitizes the URL's
netloc into a default name, fails on a non-200 status with
`'%s: status code %d' % (response.url, response.status_code)`, otherwise
builds one `RemoteCatalogEntry(url=self.source_url, **s)` per element of
`info['sources']` keyed by `s['name']`; no children, no plugins. -/
def RemoteState.refresh (st : RemoteState) (response : HttpResponse) :
    Except String Snapshot :=
  let name :=
    ((netloc st.observable).replace "." "_").replace ":" "_"
  if response.status_code ≠ 200 then
    .error (response.url ++ ": status code " ++ toString response.status_code)
  else
    match response.sources with
    | none => .error "msgpack unpack failed"
    | some sources =>
      .ok { name := some name,
            children := [],
            entries := sources.map (fun s =>
              (s.name, { url := some st.source_url,
                         fields := ("name", s.name) :: s.options })),
            plugins := [] }

/-- `big` contains `small` as a substring. -/
def containsStr (big small : String) : Prop :=
  ∃ pre post, big = pre ++ small ++ post

/-- Modelled from the spec: the `CatalogConfig` collaborator of
`catalog/local.py` is not part of the provided source; per the spec's §6
contract it returns, for a config-file path, a name, a mapping of entry
names to entry descriptors, and a sequence of plugin descriptors. -/
structure LocalConfig where
  name : String
  entries : List (String × Entry)
  plugins : List Plugin
deriving Repr, DecidableEq

/-- A child `Catalog` object as owned by a Directory or Collection
watcher: `id` stands for Python object identity; the remaining fields are
the child's cached snapshot components at this level. -/
structure ChildCat where
  id : Nat
  name : Option String
  entries : List (String × Entry)
  plugins : List Plugin
deriving Repr, DecidableEq

/-- Insertion into a Python dict modelled as an ordered association list:
an existing key keeps its position and takes the new value; a new key is
appended. -/
def dictInsert {α β : Type} [BEq α] (d : List (α × β)) (k : α) (v : β) :
    List (α × β) :=
  if d.any (fun p => p.1 == k) then
    d.map (fun p => if p.1 == k then (k, v) else p)
  else d ++ [(k, v)]

/-- A Python dict comprehension over `l`: left-to-right insertion. -/
def dictOfList {α β : Type} [BEq α] (l : List (α × β)) : List (α × β) :=
  l.foldl (fun d p => dictInsert d p.1 p.2) []

/-- Model of `os.path.join(d, f)` for a relative `f`. -/
def pathJoin (d f : String) : String := d ++ "/" ++ f

/-- The child `Catalog(os.path.join(observable, f))` a Directory watcher
constructs for a selected config file: the path ends in `.yml`/`.yaml`, so
classification yields a Local watcher (the model assumes the joined path
is not itself a directory), and the eager `reload()` at construction
adopts the parsed config's name, entries and plugins.  `id` is the
freshly allocated object identity; `cfg` is the spec-modelled parse
collaborator. -/
def mkLocalChild (id : Nat) (path : String) (cfg : String → LocalConfig) :
    ChildCat :=
  { id := id, name := some (cfg path).name,
    entries := (cfg path).entries, plugins := (cfg path).plugins }

/-- The `catalogs.append(Catalog(...))` loop of `DirectoryState.refresh`
over the already-filtered file names, allocating one fresh object
identity per constructed child. -/
def allocChildren (observable : String) (cfg : String → LocalConfig) :
    Nat → List String → List ChildCat
  | _, [] => []
  | nid, f :: fs =>
    mkLocalChild nid (pathJoin observable f) cfg ::
      allocChildren observable cfg (nid + 1) fs

/-- What one `DirectoryState.refresh` call produces: the returned 4-tuple
(name, children, entries, plugins) plus the replaced `self.catalogs` list
and the advanced identity counter. -/
structure DirRefreshResult where
  name : Option String
  children : List (Option String × ChildCat)
  entries : List (String × Entry)
  plugins : List Plugin
  catalogs : List ChildCat
  nextId : Nat
deriving Repr, DecidableEq

/-- `DirectoryState.refresh` (`base.py` lines 42-51): lists the directory
(oracle `listing` for `os.listdir`), selects names ending in `.yml` or
`.yaml`, constructs one fresh child Catalog per selected file, replaces
`self.catalogs` with the new list, and returns the directory's own name,
a children dict keyed by each child's discovered name, and empty entries
and plugins. -/
def DirectoryState.refresh (name : Option String) (observable : String)
    (listing : List String) (cfg : String → LocalConfig) (nextId : Nat) :
    DirRefreshResult :=
  let files := listing.filter (fun f =>
    endsWithStr f ".yml" || endsWithStr f ".yaml")
  let catalogs := allocChildren observable cfg nextId files
  let children := dictOfList (catalogs.map (fun c => (c.name, c)))
  { name := name, children := children, entries := [], plugins := [],
    catalogs := catalogs, nextId := nextId + files.length }

/-- `CollectionState`'s own mutable datum: the child Catalogs built once
at construction (`self.catalogs`). -/
structure CollectionStateM where
  catalogs : List ChildCat
deriving Repr, DecidableEq

/-- The effect of `catalog.reload()` on one child during a Collection
refresh: the child's own watcher produces new snapshot components (oracle
`newSnap`, keyed by object identity), which overwrite the child's cached
fields in place; the object — its identity — is retained. -/
def reloadChild
    (newSnap : Nat → Option String × List (String × Entry) × List Plugin)
    (c : ChildCat) : ChildCat :=
  { id := c.id, name := (newSnap c.id).1,
    entries := (newSnap c.id).2.1, plugins := (newSnap c.id).2.2 }

/-- What one `CollectionState.refresh` call produces: the returned
4-tuple plus the (unreplaced) `self.catalogs` list afterwards. -/
structure CollRefreshResult where
  name : Option String
  children : List (Option String × ChildCat)
  entries : List (String × Entry)
  plugins : List Plugin
  catalogs : List ChildCat
deriving Repr, DecidableEq

/-- `CollectionState.refresh` (`base.py` lines 95-100): forces every
existing child to reload (mutating each child in place; the list and the
objects are kept), then rebuilds the children dict from the
possibly-renamed children; its own name is `None`; no entries or
plugins. -/
def CollectionState.refresh (st : CollectionStateM)
    (newSnap : Nat → Option String × List (String × Entry) × List Plugin) :
    CollRefreshResult :=
  let catalogs := st.catalogs.map (reloadChild newSnap)
  let children := dictOfList (catalogs.map (fun c => (c.name, c)))
  { name := none, children := children, entries := [], plugins := [],
    catalogs := catalogs }

/-- The per-node data of a catalog tree as `walk` sees it: cached name,
children (by object identity, the values of `self._children`), and
entries.  A `Graph` is the heap: an association list from identity to
node, so that one child can be referenced by several parents. -/
structure Node where
  name : Option String
  childIds : List Nat
  entries : List (String × Entry)
deriving Repr, DecidableEq

/-- The heap of catalog objects. -/
abbrev Graph := List (Nat × Node)

/-- Look an object up by identity. -/
def lookupNode (g : Graph) (i : Nat) : Option Node :=
  (List.find? (fun p => p.1 == i) g).map Prod.snd

/-- `set(catalog._children.values())` as identities (a missing object has
none). -/
def childrenOf (g : Graph) (i : Nat) : List Nat :=
  ((lookupNode g i).map Node.childIds).getD []

/-- `catalog.name` of the object with identity `i`. -/
def nameOf (g : Graph) (i : Nat) : Option String :=
  ((lookupNode g i).map Node.name).getD none

/-- `catalog._entries` of the object with identity `i`. -/
def entriesOf (g : Graph) (i : Nat) : List (String × Entry) :=
  ((lookupNode g i).map Node.entries).getD []

/-- Every identity that can ever appear in the traversal queue: the root
plus every stored identity and every stored child reference. -/
def univNodes (g : Graph) (root : Nat) : List Nat :=
  root :: g.flatMap (fun p => p.1 :: p.2.childIds)

/-- The loop of `Catalog.walk` (`base.py` lines 164-176), yielding the
visited catalogs in visit order: pop the queue head; skip it if already
in the visited set; otherwise mark it visited, enqueue its not-yet-visited
children (`set(catalog._children.values()) - visited`, the set modelled
as `dedup`), and yield it.  The invariant `hq` (every queued identity lies
in the finite universe of identities stored in the heap) bounds the
recursion. -/
def walkAux (g : Graph) (root : Nat) (queue visited : List Nat)
    (hq : ∀ x ∈ queue, x ∈ univNodes g root) : List Nat :=
  match queue, hq with
  | [], _ => []
  | c :: rest, hq =>
    if hc : c ∈ visited then
      walkAux g root rest visited
        (fun x hx => hq x (List.mem_cons_of_mem c hx))
    else
      c :: walkAux g root
        (rest ++ (childrenOf g c).dedup.filter (fun k => decide (k ∉ visited)))
        (c :: visited)
        (fun x hx => by
          rcases List.mem_append.mp hx with h | h
          · exact hq x (List.mem_cons_of_mem c h)
          · have hcx : x ∈ childrenOf g c :=
              List.mem_dedup.mp (List.mem_of_mem_filter h)
            unfold childrenOf lookupNode at hcx
            revert hcx
            cases hfind : List.find? (fun p => p.1 == c) g with
            | none => intro hcx; simp at hcx
            | some p =>
              intro hcx
              simp only [Option.map_some, Option.map_map, Option.getD_some,
                Function.comp] at hcx
              exact List.mem_cons_of_mem root (List.mem_flatMap.mpr
                ⟨p, List.mem_of_find?_eq_some hfind,
                  List.mem_cons_of_mem p.1 hcx⟩))
termination_by
  (((univNodes g root).filter (fun x => decide (x ∉ visited))).length,
    queue.length)
decreasing_by
  · apply Prod.Lex.right
    simp [List.length_cons, Nat.lt_succ_self]
  · apply Prod.Lex.left
    have key : ∀ (univ : List Nat), c ∈ univ →
        (List.filter (fun x => decide (x ∉ c :: visited)) univ).length <
          (List.filter (fun x => decide (x ∉ visited)) univ).length := ?_
    · exact key (univNodes g root) (hq c (List.mem_cons_self c rest))
    intro univ
    induction univ with
    | nil => intro h; cases h
    | cons a t ih =>
      intro hcu
      by_cases hac : a = c
      · subst hac
        have h1 : (decide (a ∉ a :: visited)) = false := by simp
        have h2 : (decide (a ∉ visited)) = true := by simpa using hc
        rw [List.filter_cons, List.filter_cons, h1, h2]
        simp only [Bool.false_eq_true, if_false, if_true, List.length_cons]
        have hsub :
            (t.filter (fun x => decide (x ∉ a :: visited))).length ≤
              (t.filter (fun x => decide (x ∉ visited))).length :=
          List.Sublist.length_le (List.monotone_filter_right t
            (fun x hx => by
              simp only [decide_eq_true_eq] at hx ⊢
              exact fun hv => hx (List.mem_cons_of_mem a hv)))
        omega
      · have hcu2 : c ∈ t := by
          rcases List.mem_cons.mp hcu with h | h
          · exact absurd h.symm hac
          · exact h
        have heq : (decide (a ∉ c :: visited)) = (decide (a ∉ visited)) := by
          simp [decide_eq_decide, List.mem_cons, hac]
        rw [List.filter_cons, List.filter_cons, heq]
        by_cases hav : a ∈ visited
        · have h2 : (decide (a ∉ visited)) = false := by simp [hav]
          rw [h2]
          simp only [Bool.false_eq_true, if_false]
          exact ih hcu2
        · have h2 : (decide (a ∉ visited)) = true := by simp [hav]
          rw [h2]
          simp only [if_true, List.length_cons]
          exact Nat.succ_lt_succ (ih hcu2)

/-- `Catalog.walk(leaves=False)` from the node `root`: the visited
catalog nodes in visit order. -/
def walkNodes (g : Graph) (root : Nat) : List Nat :=
  walkAux g root [root] []
    (fun x hx => by
      rw [List.mem_singleton.mp hx]
      exact List.mem_cons_self root _)

/-- `Catalog.walk(leaves=True)`: for each visited catalog in visit order,
one `(catalog, entry-name, entry)` triple per entry.  The visit order and
the visited set do not depend on the `leaves` flag, so the triples are
the flattening of the per-node entry lists along `walkNodes`. -/
def walkLeaves (g : Graph) (root : Nat) : List (Nat × String × Entry) :=
  (walkNodes g root).flatMap
    (fun i => (entriesOf g i).map (fun p => (i, p.1, p.2)))

/-- `[catalog.name for catalog in catalogs if catalog.name]`: keep the
truthy names (`None` and the empty string are falsy). -/
def truthyNames (l : List (Option String)) : List String :=
  l.filterMap (fun n =>
    match n with
    | some s => if s ≠ "" then some s else none
    | none => none)

/-- `a, b, c = zip(*triples)`: transposing an empty sequence calls
`zip()` with no iterables, whose unpacking into three names raises
`ValueError`; otherwise the three columns. -/
def zipStar3 {α β γ : Type} (l : List (α × β × γ)) :
    Except String (List α × List β × List γ) :=
  if l.isEmpty then .error "ValueError: not enough values to unpack"
  else .ok (l.map (fun t => t.1), l.map (fun t => t.2.1),
    l.map (fun t => t.2.2))

/-- `Catalog.get_catalogs` (`base.py` lines 178-180): transposes
`self.walk()` — with the default `leaves=True` — takes the owning
catalogs column, keeps their truthy names, and deduplicates via `set`
(iteration order abstracted as first occurrence). -/
def get_catalogs (g : Graph) (root : Nat) : Except String (List String) :=
  match zipStar3 (walkLeaves g root) with
  | .error e => .error e
  | .ok (catalogs, _, _) =>
    .ok ((truthyNames (catalogs.map (fun i => nameOf g i))).dedup)

/-- `Catalog.get_entries` (`base.py` lines 182-184): transposes
`self.walk()` and deduplicates the entry-name column via `set`. -/
def get_entries (g : Graph) (root : Nat) : Except String (List String) :=
  match zipStar3 (walkLeaves g root) with
  | .error e => .error e
  | .ok (_, names, _) => .ok names.dedup

/-- One parent-to-child step in the catalog heap. -/
def childStep (g : Graph) (a b : Nat) : Prop := b ∈ childrenOf g a

/-- Reachability from a node along children edges. -/
def Reachable (g : Graph) (root x : Nat) : Prop :=
  Relation.ReflTransGen (childStep g) root x

/-- Concrete heap for claim C4: a root catalog named `root` with no
entries of its own whose only child `c` owns one entry. -/
def heapC4 : Graph :=
  [(0, { name := some "root", childIds := [1], entries := [] }),
   (1, { name := some "c", childIds := [],
         entries := [("e", { url := none, fields := [] })] })]

end Intake

namespace Intake

/-- Helper: the traversal never yields a node twice, and never yields a
node already in the visited set. -/
theorem walkAux_nodup (g : Graph) (root : Nat) (queue visited : List Nat)
    (hq : ∀ x ∈ queue, x ∈ univNodes g root) :
    (walkAux g root queue visited hq).Nodup ∧
    ∀ x ∈ walkAux g root queue visited hq, x ∉ visited := by
  induction queue, visited, hq using walkAux.induct g root with
  | case1 => simp [walkAux]
  | case2 visited c rest hq hc hq2 ih =>
    rw [walkAux, dif_pos hc]
    exact ih
  | case3 visited c rest hq hc hq2 ih =>
    rw [walkAux, dif_neg hc]
    obtain ⟨ihn, ihv⟩ := ih
    constructor
    · exact List.nodup_cons.mpr
        ⟨fun hcmem => (ihv c hcmem) (List.mem_cons_self c visited), ihn⟩
    · intro x hx
      rcases List.mem_cons.mp hx with rfl | hxw
      · exact hc
      · exact fun hxv => (ihv x hxw) (List.mem_cons_of_mem c hxv)

/-- Helper: everything the traversal yields is reachable from the root,
provided everything queued is. -/
theorem walkAux_sound (g : Graph) (root : Nat) (queue visited : List Nat)
    (hq : ∀ x ∈ queue, x ∈ univNodes g root) :
    (∀ q ∈ queue, Reachable g root q) →
    ∀ x ∈ walkAux g root queue visited hq, Reachable g root x := by
  induction queue, visited, hq using walkAux.induct g root with
  | case1 =>
    intro _ x hx
    rw [walkAux] at hx
    cases hx
  | case2 visited c rest hq hc hq2 ih =>
    intro hr x hx
    rw [walkAux, dif_pos hc] at hx
    exact ih (fun q hqr => hr q (List.mem_cons_of_mem c hqr)) x hx
  | case3 visited c rest hq hc hq2 ih =>
    intro hr x hx
    rw [walkAux, dif_neg hc] at hx
    rcases List.mem_cons.mp hx with rfl | hxw
    · exact hr x (List.mem_cons_self x rest)
    · refine ih ?_ x hxw
      intro q hqm
      rcases List.mem_append.mp hqm with h | h
      · exact hr q (List.mem_cons_of_mem c h)
      · have hqc : q ∈ childrenOf g c :=
          List.mem_dedup.mp (List.mem_of_mem_filter h)
        exact Relation.ReflTransGen.tail (hr c (List.mem_cons_self c rest)) hqc

/-- Helper: every node reachable from a queued or visited node ends up
visited (in the prior visited set or in the output), as long as the
visited set is closed under children modulo the queue. -/
theorem walkAux_complete (g : Graph) (root : Nat) (queue visited : List Nat)
    (hq : ∀ x ∈ queue, x ∈ univNodes g root) :
    (∀ v ∈ visited, ∀ k ∈ childrenOf g v, k ∈ visited ∨ k ∈ queue) →
    ∀ x s, (s ∈ queue ∨ s ∈ visited) →
      Relation.ReflTransGen (childStep g) s x →
      x ∈ visited ∨ x ∈ walkAux g root queue visited hq := by
  induction queue, visited, hq using walkAux.induct g root with
  | case1 visited =>
    intro hclosed x s hs hreach
    left
    have hsv : s ∈ visited := by
      rcases hs with h | h
      · exact absurd h (List.not_mem_nil s)
      · exact h
    induction hreach with
    | refl => exact hsv
    | tail hab hbc ihr =>
      rcases hclosed _ ihr _ hbc with h | h
      · exact h
      · exact absurd h (List.not_mem_nil _)
  | case2 visited c rest hq hc hq2 ih =>
    intro hclosed x s hs hreach
    rw [walkAux, dif_pos hc]
    refine ih ?_ x s ?_ hreach
    · intro v hv k hk
      rcases hclosed v hv k hk with h | h
      · exact Or.inl h
      · rcases List.mem_cons.mp h with rfl | hr
        · exact Or.inl hc
        · exact Or.inr hr
    · rcases hs with h | h
      · rcases List.mem_cons.mp h with rfl | hr
        · exact Or.inr hc
        · exact Or.inl hr
      · exact Or.inr h
  | case3 visited c rest hq hc hq2 ih =>
    intro hclosed x s hs hreach
    rw [walkAux, dif_neg hc]
    have hclosed2 : ∀ v ∈ c :: visited, ∀ k ∈ childrenOf g v,
        k ∈ c :: visited ∨
        k ∈ rest ++ (childrenOf g c).dedup.filter
          (fun k => decide (k ∉ visited)) := by
      intro v hv k hk
      rcases List.mem_cons.mp hv with rfl | hvv
      · by_cases hkv : k ∈ visited
        · exact Or.inl (List.mem_cons_of_mem v hkv)
        · refine Or.inr (List.mem_append_right _ ?_)
          refine List.mem_filter.mpr ⟨List.mem_dedup.mpr hk, ?_⟩
          simpa using hkv
      · rcases hclosed v hvv k hk with h | h
        · exact Or.inl (List.mem_cons_of_mem c h)
        · rcases List.mem_cons.mp h with rfl | hr
          · exact Or.inl (List.mem_cons_self k visited)
          · exact Or.inr (List.mem_append_left _ hr)
    have hs2 : s ∈ rest ++ (childrenOf g c).dedup.filter
          (fun k => decide (k ∉ visited)) ∨ s ∈ c :: visited := by
      rcases hs with h | h
      · rcases List.mem_cons.mp h with rfl | hr
        · exact Or.inr (List.mem_cons_self s visited)
        · exact Or.inl (List.mem_append_left _ hr)
      · exact Or.inr (List.mem_cons_of_mem c h)
    rcases ih hclosed2 x s hs2 hreach with h | h
    · rcases List.mem_cons.mp h with rfl | hv
      · exact Or.inr (List.mem_cons_self x _)
      · exact Or.inl hv
    · exact Or.inr (List.mem_cons_of_mem c h)

/-- Helper: inserting a key absent from the dict appends. -/
theorem dictInsert_missing {α β : Type} [BEq α] [LawfulBEq α]
    (d : List (α × β)) (k : α) (v : β) (h : ∀ p ∈ d, p.1 ≠ k) :
    dictInsert d k v = d ++ [(k, v)] := by
  have hany : (d.any (fun p => p.1 == k)) = false := by
    rw [List.any_eq_false]
    intro p hp
    simpa using h p hp
  unfold dictInsert
  rw [hany]
  simp

/-- Helper: building a dict from pairs with pairwise-distinct keys keeps
every pair, appended after the accumulator. -/
theorem foldl_dictInsert_nodup {α β : Type} [BEq α] [LawfulBEq α] :
    ∀ (l acc : List (α × β)),
      (∀ p ∈ l, ∀ q ∈ acc, p.1 ≠ q.1) → (l.map Prod.fst).Nodup →
      l.foldl (fun d p => dictInsert d p.1 p.2) acc = acc ++ l := by
  intro l
  induction l with
  | nil => intro acc _ _; simp
  | cons p t ih =>
    intro acc hdisj hnd
    have hndc : (p.1 :: t.map Prod.fst).Nodup := by simpa using hnd
    have hnd2 := List.nodup_cons.mp hndc
    simp only [List.foldl_cons]
    rw [dictInsert_missing acc p.1 p.2
      (fun q hq => (hdisj p (List.mem_cons_self p t) q hq).symm)]
    rw [ih (acc ++ [(p.1, p.2)]) ?_ ?_]
    · simp
    · intro r hr q hq
      rcases List.mem_append.mp hq with h | h
      · exact hdisj r (List.mem_cons_of_mem p hr) q h
      · rcases List.mem_singleton.mp h with rfl
        intro he
        exact hnd2.1 (he ▸ List.mem_map_of_mem Prod.fst hr)
    · exact hnd2.2

/-- Helper: a dict comprehension over pairs with distinct keys is the
pair list itself. -/
theorem dictOfList_eq_self {α β : Type} [BEq α] [LawfulBEq α]
    (l : List (α × β)) (hnd : (l.map Prod.fst).Nodup) : dictOfList l = l := by
  unfold dictOfList
  rw [foldl_dictInsert_nodup l [] (by simp) hnd]
  simp

/-- Helper: the construction loop builds one child per selected file. -/
theorem allocChildren_length (obs : String) (cfg : String → LocalConfig) :
    ∀ (nid : Nat) (fs : List String),
      (allocChildren obs cfg nid fs).length = fs.length := by
  intro nid fs
  induction fs generalizing nid with
  | nil => rfl
  | cons f t ih => simp [allocChildren, ih]

/-- Helper: each constructed child's discovered name is the parsed
config's name of the joined path. -/
theorem allocChildren_names (obs : String) (cfg : String → LocalConfig) :
    ∀ (nid : Nat) (fs : List String),
      (allocChildren obs cfg nid fs).map ChildCat.name =
        fs.map (fun f => some (cfg (pathJoin obs f)).name) := by
  intro nid fs
  induction fs generalizing nid with
  | nil => rfl
  | cons f t ih => simp [allocChildren, mkLocalChild, ih]

/-- Helper: every child constructed by the loop carries a fresh identity,
at least the starting counter. -/
theorem allocChildren_id_ge (obs : String) (cfg : String → LocalConfig) :
    ∀ (nid : Nat) (fs : List String) (c : ChildCat),
      c ∈ allocChildren obs cfg nid fs → nid ≤ c.id := by
  intro nid fs
  induction fs generalizing nid with
  | nil => intro c hc; cases hc
  | cons f t ih =>
    intro c hc
    rcases List.mem_cons.mp hc with rfl | hm
    · simp [mkLocalChild]
    · exact Nat.le_of_succ_le (ih (nid + 1) c hm)

/-- Claim C1: `reload()` is atomic.  When the watcher's `refresh()`
succeeds with snapshot `s`, all four cached components (name, children,
entries, plugins) are replaced by the components of `s`; when it fails
with error `e`, the error propagates and every component of the prior
cache is left unchanged. -/
theorem reload_atomic (c : CatalogCache) (e : String) (s : Snapshot) :
    (Catalog.reload c (.error e) = (.error e, c) ∧
      ((Catalog.reload c (.error e)).2.name = c.name ∧
       (Catalog.reload c (.error e)).2.children = c.children ∧
       (Catalog.reload c (.error e)).2.entries = c.entries ∧
       (Catalog.reload c (.error e)).2.plugins = c.plugins)) ∧
    ((Catalog.reload c (.ok s)).1 = .ok () ∧
      (Catalog.reload c (.ok s)).2.name = s.name ∧
      (Catalog.reload c (.ok s)).2.children = s.children ∧
      (Catalog.reload c (.ok s)).2.entries = s.entries ∧
      (Catalog.reload c (.ok s)).2.plugins = s.plugins) := by
  refine ⟨⟨rfl, rfl, rfl, rfl, rfl⟩, rfl, rfl, rfl, rfl, rfl⟩

/-- Claim C2 counterexample: two `changed()` calls within `ttl = 1`
second of each other (at times `1/2` and `7/5`, gap `9/10 ≤ 1`), with no
intervening reload, where the second call returns `true`: the first probe
falls inside the initial TTL window and is suppressed without touching
`_last_updated`, so the second probe is accepted and reports a change. -/
theorem changed_within_window_counterexample :
    ((StateClock.init 1 1).changed (1/2)).1 = false ∧
    (7/5 : ℚ) - 1/2 ≤ (StateClock.init 1 1).ttl ∧
    ((((StateClock.init 1 1).changed (1/2)).2).changed (7/5)).1 = true := by
  refine ⟨?_, by norm_num [StateClock.init, clamp], ?_⟩ <;>
    norm_num [StateClock.init, StateClock.changed,
      StateClock.update_modification_time, clamp]

/-- Claim C2 (amended): the shared staleness primitive behaves exactly as
stated — an accepted probe (`now - last_updated > ttl`) returns
`value > modification_time` and stores `value` and `now`; a suppressed
probe returns `false` and leaves the state untouched.  The throttling
consequence holds for a second `changed()` call within `ttl` seconds of
the first *provided the first probe was accepted*: then the second is
always suppressed and returns `false`.  (Without that proviso the
consequence fails, see the counterexample.) -/
theorem update_modification_time_ttl (s : StateClock) (v n1 n2 : ℚ)
    (hacc : s.ttl < n1 - s.last_updated) (hwin : n2 - n1 ≤ s.ttl) :
    (s.update_modification_time v n1 =
      (decide (v > s.modification_time),
        { s with modification_time := v, last_updated := n1 })) ∧
    (∀ w m, ¬ s.ttl < m - s.last_updated →
        s.update_modification_time w m = (false, s)) ∧
    ((s.changed n1).2.changed n2).1 = false := by
  refine ⟨?_, ?_, ?_⟩
  · simp [StateClock.update_modification_time, hacc]
  · intro w m hm
    simp [StateClock.update_modification_time, hm]
  · have h1 : (s.changed n1).2 =
        { s with modification_time := n1, last_updated := n1 } := by
      simp [StateClock.changed, StateClock.update_modification_time, hacc]
    rw [h1]
    simp only [StateClock.changed, StateClock.update_modification_time]
    rw [if_neg (not_lt.mpr (by linarith))]

/-- Witness for `update_modification_time_ttl` at
`s = ⟨1,0,0⟩`, `v = 2`, `n1 = 2`, `n2 = 5/2`. -/
theorem update_modification_time_ttl_witness :
    (1 : ℚ) < 2 - 0 ∧ (5 / 2 : ℚ) - 2 ≤ 1 ∧
    ((((⟨1, 0, 0⟩ : StateClock).changed 2).2).changed (5 / 2)).1 = false :=
  ⟨by norm_num, by norm_num,
    (update_modification_time_ttl ⟨1, 0, 0⟩ 2 2 (5 / 2)
      (by norm_num) (by norm_num)).2.2⟩

/-- Claim C10: every accepted staleness probe of the base watcher (hence
of every Remote watcher, which inherits `changed()`) returns `true`:
`changed()` feeds the current clock time in as the observed value, and an
accepted probe happens strictly later than `last_updated`, which (by the
invariant maintained by `changed`) is at least the stored
`modification_time`; so the comparison new-time > stored-time always
holds.  The invariant is re-established after the call. -/
theorem changed_accepted_true (s : StateClock) (now : ℚ)
    (hinv : s.modification_time ≤ s.last_updated) (h0 : 0 ≤ s.ttl)
    (hacc : s.ttl < now - s.last_updated) :
    (s.changed now).1 = true ∧
    (s.changed now).2.modification_time ≤
      (s.changed now).2.last_updated := by
  have hgt : s.modification_time < now := by linarith
  constructor
  · simp [StateClock.changed, StateClock.update_modification_time, hacc]
    exact hgt
  · simp [StateClock.changed, StateClock.update_modification_time, hacc]

/-- Witness for `changed_accepted_true` at `s = ⟨1,0,0⟩`, `now = 2`. -/
theorem changed_accepted_true_witness :
    (0 : ℚ) ≤ 0 ∧ (0 : ℚ) ≤ 1 ∧ (1 : ℚ) < 2 - 0 ∧
    (((⟨1, 0, 0⟩ : StateClock).changed 2).1 = true ∧
      ((⟨1, 0, 0⟩ : StateClock).changed 2).2.modification_time ≤
        ((⟨1, 0, 0⟩ : StateClock).changed 2).2.last_updated) :=
  ⟨by norm_num, by norm_num, by norm_num,
    changed_accepted_true ⟨1, 0, 0⟩ 2 (by norm_num) (by norm_num)
      (by norm_num)⟩

/-- Claim C3: for every observable, `create_state` classifies by the
claim's rules in order with first match winning — list → Collection,
`http://`/`https://` string → Remote, existing directory → Directory,
`.yml`/`.yaml` suffix → Local, otherwise the `UnsupportedObservable`
(`TypeError`) failure. -/
theorem create_state_classifies (observable : Observable)
    (isdir : String → Bool) :
    create_state observable isdir = classifyClaim observable isdir := by
  cases observable with
  | strs l => rfl
  | str s =>
    cases hh : s.startsWith "http://" <;>
      cases hhs : s.startsWith "https://" <;>
        cases hd : isdir s <;>
          cases hy : endsWithStr s ".yml" <;>
            cases hya : endsWithStr s ".yaml" <;>
              simp [create_state, classifyClaim, hh, hhs, hd, hy, hya]

/-- Claim C7: a Remote watcher whose info GET returns any status other
than 200 fails `refresh()` with an error containing both the request URL
and the status code, and a `reload()` driven by that refresh propagates
the error and leaves the owning catalog's prior snapshot unchanged. -/
theorem remote_refresh_non200 (st : RemoteState) (response : HttpResponse)
    (c : CatalogCache) (h : response.status_code ≠ 200) :
    ∃ e, st.refresh response = .error e ∧
      containsStr e response.url ∧
      containsStr e (toString response.status_code) ∧
      Catalog.reload c (st.refresh response) = (.error e, c) := by
  refine ⟨response.url ++ ": status code " ++ toString response.status_code,
    ?_, ?_, ?_, ?_⟩
  · simp [RemoteState.refresh, h]
  · exact ⟨"", ": status code " ++ toString response.status_code, by
      simp [String.append_assoc]⟩
  · exact ⟨response.url ++ ": status code ", "", by
      simp [String.append_assoc]⟩
  · simp [RemoteState.refresh, h, Catalog.reload]

/-- Claim C8: `walk` keeps a visited set keyed by object identity, so
each catalog node reachable from the root — in particular a child
reachable through two different parents — is visited exactly once, and
with `leaves=False` each visited node is yielded exactly once: the yield
sequence has no duplicates and contains precisely the reachable nodes. -/
theorem walk_visits_reachable_once (g : Graph) (root : Nat) :
    (walkNodes g root).Nodup ∧
    ∀ x, x ∈ walkNodes g root ↔ Reachable g root x := by
  constructor
  · exact (walkAux_nodup g root [root] [] _).1
  · intro x
    constructor
    · intro hx
      exact walkAux_sound g root [root] [] _
        (fun q hqm => by
          rw [List.mem_singleton.mp hqm]
          exact Relation.ReflTransGen.refl) x hx
    · intro hr
      rcases walkAux_complete g root [root] [] _
          (fun v hv => absurd hv (List.not_mem_nil v)) x root
          (Or.inl (List.mem_singleton_self root)) hr with h | h
      · exact absurd h (List.not_mem_nil x)
      · exact h

/-- Claim C9: when the whole subtree owns no entries, `walk(leaves=True)`
yields nothing, so `get_entries()` and `get_catalogs()` destructure the
transposition of an empty sequence and raise the unpacking `ValueError`
instead of returning an empty list. -/
theorem get_empty_walk_raises (g : Graph) (root : Nat)
    (h : walkLeaves g root = []) :
    get_entries g root = .error "ValueError: not enough values to unpack" ∧
    get_catalogs g root =
      .error "ValueError: not enough values to unpack" := by
  constructor <;> simp [get_entries, get_catalogs, zipStar3, h]

/-- Witness for `get_empty_walk_raises`: the one-node heap with no stored
objects (the root has no entries and no children). -/
theorem get_empty_walk_raises_witness :
    walkLeaves [] 0 = [] ∧
    (get_entries [] 0 =
        .error "ValueError: not enough values to unpack" ∧
      get_catalogs [] 0 =
        .error "ValueError: not enough values to unpack") := by
  have h : walkLeaves ([] : Graph) 0 = [] := by
    simp [walkLeaves, walkNodes, walkAux, entriesOf, lookupNode, childrenOf]
  exact ⟨h, get_empty_walk_raises [] 0 h⟩

/-- Claim C4 counterexample: on `heapC4` the node `root` is visited by
`walk(leaves=False)` and has a distinct non-empty name, so the claim says
`get_catalogs` includes `"root"`; but `get_catalogs` actually transposes
`walk(leaves=True)` — whose triples only ever mention catalogs owning at
least one entry — and returns just `["c"]`. -/
theorem get_catalogs_counterexample :
    get_catalogs heapC4 0 = .ok ["c"] ∧
    (truthyNames ((walkNodes heapC4 0).map (fun i => nameOf heapC4 i))).dedup
      = ["root", "c"] ∧
    (["root", "c"] : List String) ≠ ["c"] := by
  have hw : walkNodes heapC4 0 = [0, 1] := by
    simp [walkNodes, walkAux, heapC4, childrenOf, lookupNode, List.find?]
  have hl : walkLeaves heapC4 0 =
      [(1, "e", { url := none, fields := [] })] := by
    unfold walkLeaves
    rw [hw]
    rfl
  refine ⟨?_, ?_, by decide⟩
  · unfold get_catalogs
    rw [hl]
    rfl
  · rw [hw]
    rfl

/-- Claim C4 (amended): `get_catalogs` transposes `walk()` with its
default `leaves=True`, so it returns exactly the distinct truthy names of
the catalogs owning the yielded entries: a name appears iff it is
non-empty and names the owner of some `(catalog, entry-name, entry)`
triple.  Visited catalogs that own no entries never appear (and when no
triple exists at all the call raises instead, see C9). -/
theorem get_catalogs_owner_names (g : Graph) (root : Nat)
    (h : walkLeaves g root ≠ []) :
    ∃ names, get_catalogs g root = .ok names ∧
      ∀ s, s ∈ names ↔
        (s ≠ "" ∧ ∃ t ∈ walkLeaves g root, nameOf g t.1 = some s) := by
  refine ⟨(truthyNames
    ((walkLeaves g root).map (fun t => nameOf g t.1))).dedup, ?_, ?_⟩
  · unfold get_catalogs zipStar3
    rw [if_neg (by simpa using h)]
    dsimp only
    rw [List.map_map]
    rfl
  · intro s
    rw [List.mem_dedup]
    unfold truthyNames
    rw [List.mem_filterMap]
    constructor
    · rintro ⟨n, hn, he⟩
      rcases List.mem_map.mp hn with ⟨t, ht, rfl⟩
      cases hcase : nameOf g t.1 with
      | none => rw [hcase] at he; cases he
      | some u =>
        rw [hcase] at he
        by_cases hu : u = ""
        · simp [hu] at he
        · simp only [hu, ne_eq, not_false_iff, if_true] at he
          cases he
          exact ⟨hu, t, ht, hcase⟩
    · rintro ⟨hne, t, ht, hname⟩
      refine ⟨some s, List.mem_map.mpr ⟨t, ht, hname⟩, ?_⟩
      simp [hne]

/-- Witness for `get_catalogs_owner_names` on `heapC4`. -/
theorem get_catalogs_owner_names_witness :
    walkLeaves heapC4 0 ≠ [] ∧
    ∃ names, get_catalogs heapC4 0 = .ok names ∧
      ∀ s, s ∈ names ↔
        (s ≠ "" ∧ ∃ t ∈ walkLeaves heapC4 0, nameOf heapC4 t.1 = some s) := by
  have hw : walkNodes heapC4 0 = [0, 1] := by
    simp [walkNodes, walkAux, heapC4, childrenOf, lookupNode, List.find?]
  have hl : walkLeaves heapC4 0 =
      [(1, "e", { url := none, fields := [] })] := by
    unfold walkLeaves
    rw [hw]
    rfl
  have hne : walkLeaves heapC4 0 ≠ [] := by rw [hl]; simp
  exact ⟨hne, get_catalogs_owner_names heapC4 0 hne⟩

/-- Claim C5 counterexample: a Collection watcher with one child (object
identity 0) refreshes by reloading that same child object in place — the
post-refresh `catalogs` list and the rebuilt children map still hold the
object with identity 0 (renamed by its own reload), not a freshly
constructed Catalog, contradicting "old child objects are discarded and
fresh child Catalogs are constructed" for Collection watchers. -/
theorem collection_refresh_retains_children :
    ((CollectionState.refresh ⟨[⟨0, some "a", [], []⟩]⟩
        (fun _ => (some "b", [], []))).catalogs.map ChildCat.id) = [0] ∧
    ((⟨[⟨0, some "a", [], []⟩]⟩ : CollectionStateM).catalogs.map ChildCat.id)
      = [0] ∧
    (CollectionState.refresh ⟨[⟨0, some "a", [], []⟩]⟩
        (fun _ => (some "b", [], []))).children =
      [(some "b", ⟨0, some "b", [], []⟩)] :=
  ⟨rfl, rfl, rfl⟩

/-- Claim C5 (amended): a Directory watcher's `refresh()` does replace
its children wholesale — every child in the new `catalogs` list is a
freshly constructed object (identity at least the allocation counter, so
distinct from any previously existing object); a Collection watcher's
`refresh()` instead retains its child objects, reloading each in place:
the identity list is unchanged. -/
theorem refresh_children_ownership (name : Option String) (obs : String)
    (listing : List String) (cfg : String → LocalConfig)
    (nextId oldId : Nat) (hold : oldId < nextId) (st : CollectionStateM)
    (newSnap : Nat → Option String × List (String × Entry) × List Plugin) :
    (∀ c ∈ (DirectoryState.refresh name obs listing cfg nextId).catalogs,
        c.id ≠ oldId) ∧
    (CollectionState.refresh st newSnap).catalogs.map ChildCat.id =
      st.catalogs.map ChildCat.id := by
  constructor
  · intro c hc
    simp only [DirectoryState.refresh] at hc
    have hge := allocChildren_id_ge obs cfg nextId _ c hc
    omega
  · simp [CollectionState.refresh, reloadChild, List.map_map, Function.comp]

/-- Witness for `refresh_children_ownership` with `oldId = 0`,
`nextId = 1`. -/
theorem refresh_children_ownership_witness :
    0 < 1 ∧
    ((∀ c ∈ (DirectoryState.refresh none "/d" ["a.yml"]
          (fun _ => ⟨"a", [], []⟩) 1).catalogs, c.id ≠ 0) ∧
      (CollectionState.refresh ⟨[]⟩
          (fun _ => (none, [], []))).catalogs.map ChildCat.id =
        (⟨[]⟩ : CollectionStateM).catalogs.map ChildCat.id) :=
  ⟨Nat.zero_lt_one,
    refresh_children_ownership none "/d" ["a.yml"] (fun _ => ⟨"a", [], []⟩)
      1 0 Nat.zero_lt_one ⟨[]⟩ (fun _ => (none, [], []))⟩

/-- Claim C6 counterexample: a directory listing `a.yml`, `b.yaml` whose
two configs parse to the same discovered name yields a children map with
a single entry (the dict keyed by name collapses the collision), not
"exactly one child Catalog per immediate directory entry whose name ends
in a recognized config-file suffix" (two selected files). -/
theorem directory_refresh_collision_counterexample :
    (DirectoryState.refresh (some "d") "/d" ["a.yml", "b.yaml"]
        (fun _ => ⟨"same", [], []⟩) 0).children.length = 1 ∧
    ((["a.yml", "b.yaml"] : List String).filter
        (fun f => endsWithStr f ".yml" || endsWithStr f ".yaml")).length = 2 := by
  constructor <;> decide

/-- Claim C6 (amended): provided the selected files' discovered names are
pairwise distinct, `DirectoryState.refresh` returns the directory's own
name, a children map with exactly one child per immediate listing entry
ending in `.yml` or `.yaml` — keyed by each child's discovered name, in
listing order — and empty entries and plugins; files without the suffix
are excluded.  (When discovered names collide the map keeps one child per
distinct name, last writer wins, see the counterexample.) -/
theorem directory_refresh_children (name : Option String) (obs : String)
    (listing : List String) (cfg : String → LocalConfig) (nextId : Nat)
    (hnd : ((listing.filter (fun f => endsWithStr f ".yml" ||
        endsWithStr f ".yaml")).map
          (fun f => some (cfg (pathJoin obs f)).name)).Nodup) :
    (DirectoryState.refresh name obs listing cfg nextId).name = name ∧
    (DirectoryState.refresh name obs listing cfg nextId).entries = [] ∧
    (DirectoryState.refresh name obs listing cfg nextId).plugins = [] ∧
    (DirectoryState.refresh name obs listing cfg nextId).children.length =
      (listing.filter (fun f => endsWithStr f ".yml" ||
        endsWithStr f ".yaml")).length ∧
    (DirectoryState.refresh name obs listing cfg nextId).children.map
        Prod.fst =
      (listing.filter (fun f => endsWithStr f ".yml" ||
        endsWithStr f ".yaml")).map
        (fun f => some (cfg (pathJoin obs f)).name) ∧
    (DirectoryState.refresh name obs listing cfg nextId).children.map
        Prod.snd =
      (DirectoryState.refresh name obs listing cfg nextId).catalogs := by
  have hkeys : ((allocChildren obs cfg nextId
      (listing.filter (fun f => endsWithStr f ".yml" || endsWithStr f ".yaml"))).map
        (fun c => (c.name, c))).map Prod.fst =
      (listing.filter (fun f => endsWithStr f ".yml" ||
        endsWithStr f ".yaml")).map
        (fun f => some (cfg (pathJoin obs f)).name) := by
    rw [List.map_map]
    exact allocChildren_names obs cfg nextId _
  have hdict : dictOfList ((allocChildren obs cfg nextId
      (listing.filter (fun f => endsWithStr f ".yml" ||
        endsWithStr f ".yaml"))).map (fun c => (c.name, c))) =
      (allocChildren obs cfg nextId
        (listing.filter (fun f => endsWithStr f ".yml" ||
          endsWithStr f ".yaml"))).map (fun c => (c.name, c)) :=
    dictOfList_eq_self _ (by rw [hkeys]; exact hnd)
  refine ⟨rfl, rfl, rfl, ?_, ?_, ?_⟩
  · simp only [DirectoryState.refresh, hdict, List.length_map]
    exact allocChildren_length obs cfg nextId _
  · simp only [DirectoryState.refresh, hdict]
    exact hkeys
  · simp only [DirectoryState.refresh, hdict, List.map_map]
    have hcomp : (Prod.snd ∘ fun c : ChildCat => (c.name, c)) = id := rfl
    rw [hcomp, List.map_id]

/-- Witness for `directory_refresh_children`: the spec's own example — a
folder listing `a.yml`, `b.yaml`, `c.txt` with configs named `a` and `b`
yields exactly two children; `c.txt` is excluded. -/
theorem directory_refresh_children_witness :
    ((["a.yml", "b.yaml", "c.txt"].filter (fun f => endsWithStr f ".yml" ||
        endsWithStr f ".yaml")).map
          (fun f => some ((fun p => if p = "/d/a.yml" then
            (⟨"a", [], []⟩ : LocalConfig) else ⟨"b", [], []⟩) (pathJoin "/d" f)).name)).Nodup ∧
    (DirectoryState.refresh (some "d") "/d" ["a.yml", "b.yaml", "c.txt"]
        (fun p => if p = "/d/a.yml" then ⟨"a", [], []⟩ else ⟨"b", [], []⟩)
        0).children.length =
      (["a.yml", "b.yaml", "c.txt"].filter (fun f => endsWithStr f ".yml" ||
        endsWithStr f ".yaml")).length :=
  ⟨by decide,
    (directory_refresh_children (some "d") "/d" ["a.yml", "b.yaml", "c.txt"]
      (fun p => if p = "/d/a.yml" then ⟨"a", [], []⟩ else ⟨"b", [], []⟩)
      0 (by decide)).2.2.2.1⟩

/-- Witness for `remote_refresh_non200`: a 404 on
`http://host/cat/v1/info`. -/
theorem remote_refresh_non200_witness :
    (404 : Nat) ≠ 200 ∧
    ∃ e, RemoteState.refresh ⟨none, "http://host/cat", ⟨1, 0, 0⟩⟩
          ⟨"http://host/cat/v1/info", 404, none⟩ = .error e ∧
      containsStr e "http://host/cat/v1/info" ∧
      containsStr e (toString (404 : Nat)) ∧
      Catalog.reload ⟨none, [], [], []⟩
          (RemoteState.refresh ⟨none, "http://host/cat", ⟨1, 0, 0⟩⟩
            ⟨"http://host/cat/v1/info", 404, none⟩) =
        (.error e, ⟨none, [], [], []⟩) :=
  ⟨by decide,
    remote_refresh_non200 ⟨none, "http://host/cat", ⟨1, 0, 0⟩⟩
      ⟨"http://host/cat/v1/info", 404, none⟩ ⟨none, [], [], []⟩ (by decide)⟩

end Intake
